import Mathlib

/-!
Shallow embedding of the stage-event analytics in dashboardRoute.js of the
Final-MB-CTS repository, together with theorems settling the frozen claims
about its interval-reconstruction and aggregation behaviour.

Conventions of the embedding:
* a JS Date value / timestamp is modelled as an integer number of milliseconds
  (`Instant := ℤ`); subtraction of Dates in JS yields exactly this integer;
* JS number division (used only for averages) is modelled as exact division
  in ℚ, and Math.floor as Int.floor;
* the JS array sort with comparator (a, b) => a.timestamp - b.timestamp is a
  stable sort on the timestamp key (V8 sort is stable) and is modelled by a
  structurally recursive stable insertion sort `sortByKey`;
* String.prototype.startsWith is modelled by `jsStartsWith`, and Number(...)
  applied to a decimal-digit string by a fold over the characters.
-/

namespace MBCTS

/-- Milliseconds since epoch, the value of a JS Date. -/
abbrev Instant := ℤ

/-- One element of a vehicle's stages array (model of the stageEvent documents).
stageName and eventType are taken as present here; the raw variant used for the
error-handling claim allows them to be missing. -/
structure StageEvent where
  stageName : String
  eventType : String
  timestamp : Instant
  workType : Option String := none
  bayNumber : Option String := none
deriving DecidableEq, Repr

/-- Model of a Vehicle document: vehicleNumber, entryTime, optional exitTime and
the embedded stages array (in insertion order, not chronological order). -/
structure Vehicle where
  vehicleNumber : String
  entryTime : Instant
  exitTime : Option Instant := none
  stages : List StageEvent
deriving DecidableEq, Repr

/-- Insert an element into a list that is already sorted by an integer key,
placing it after all elements with a strictly smaller key and before the first
element whose key is not smaller; together with `sortByKey` this is a stable
insertion sort. -/
def insertByKey {α : Type} (key : α → ℤ) (a : α) : List α → List α
  | [] => [a]
  | b :: l => if key b < key a then b :: insertByKey key a l else a :: b :: l

/-- Stable sort by an integer key; models the JS stable
array.sort((a, b) => a.timestamp - b.timestamp). -/
def sortByKey {α : Type} (key : α → ℤ) (l : List α) : List α :=
  l.foldr (insertByKey key) []

/-- Sort a stage-event list chronologically, as every
.sort((a, b) => a.timestamp - b.timestamp) call in the source does. -/
def sortByTs (l : List StageEvent) : List StageEvent :=
  sortByKey (fun s => s.timestamp) l

/-- Model of the JS s.startsWith(p) test on strings. -/
def jsStartsWith (s p : String) : Bool :=
  p.data.isPrefixOf s.data

/-- Model of n.toString().padStart(2, zero): pad a string on the left with the
character 0 up to length two. -/
def padTwo (s : String) : String :=
  String.mk (List.replicate (2 - s.length) '0') ++ s

/-- Seconds-to-string part shared by every duration formatter in the source:
hours = floor(totalSeconds / 3600), mins = floor(totalSeconds % 3600 / 60),
secs = totalSeconds % 60, each zero-padded to two digits and joined by colons. -/
def fmtSec (totalSeconds : ℕ) : String :=
  let hours := totalSeconds / 3600
  let mins := totalSeconds % 3600 / 60
  let secs := totalSeconds % 60
  String.intercalate ":" ([hours, mins, secs].map fun n => padTwo (Nat.repr n))

/-- utils.formatDuration (dashboardRoute.js:1252): milliseconds to HH:MM:SS,
  totalSeconds = Math.floor(milliseconds / 1000). Faithful for the
non-negative inputs the source feeds it. -/
def formatDuration (milliseconds : ℚ) : String :=
  fmtSec (⌊milliseconds / 1000⌋).toNat

/-- utils.formatMinutes (dashboardRoute.js:1260): minutes to HH:MM:SS with
totalSeconds = Math.floor(minutes * 60). -/
def formatMinutes (minutes : ℚ) : String :=
  fmtSec (⌊minutes * 60⌋).toNat

/-- utils.formatMilliseconds (dashboardRoute.js:1268): ms => formatMinutes(ms / 60000). -/
def formatMilliseconds (ms : ℚ) : String :=
  formatMinutes (ms / 60000)

/-- A per-occurrence record pushed into a bucket's details array:
vehicleNumber, matched start/end timestamps, and the formatted duration. -/
structure Detail where
  vehicleNumber : String
  startTime : Instant
  endTime : Instant
  duration : String
deriving DecidableEq, Repr

/-- calculateStageAverages (dashboardRoute.js:1426-1428): the vehicle's events
of one exact stage name inside the window, sorted chronologically. -/
def stageEventsInWindow (stageName : String) (wStart wEnd : Instant) (v : Vehicle) :
    List StageEvent :=
  sortByTs (v.stages.filter fun s =>
    decide (s.stageName = stageName) &&
      decide (wStart ≤ s.timestamp) && decide (s.timestamp ≤ wEnd))

/-- calculateStageAverages (dashboardRoute.js:1430-1447): each Start event is
matched by ends.find(e => e.timestamp > startEvent.timestamp); a match yields
the raw durationMs added to the bucket and the pushed detail record. -/
def stageVehicleOccs (stageName : String) (wStart wEnd : Instant) (v : Vehicle) :
    List (ℤ × Detail) :=
  let stageEvents := stageEventsInWindow stageName wStart wEnd v
  let starts := stageEvents.filter fun e => e.eventType == "Start"
  let ends := stageEvents.filter fun e => e.eventType == "End"
  starts.filterMap fun startEvent =>
    (ends.find? fun e => decide (startEvent.timestamp < e.timestamp)).map fun endEvent =>
      (endEvent.timestamp - startEvent.timestamp,
        { vehicleNumber := v.vehicleNumber
          startTime := startEvent.timestamp
          endTime := endEvent.timestamp
          duration := formatMilliseconds ((endEvent.timestamp - startEvent.timestamp : ℤ) : ℚ) })

/-- One window-and-stage accumulator of calculateStageAverages:
totalDurationMs, count and details. -/
structure StageBucket where
  totalDurationMs : ℤ
  count : ℕ
  details : List Detail
deriving DecidableEq, Repr

/-- The three mutations the source performs per closed occurrence:
totalDurationMs += durationMs; count++; details.push(detail). -/
def pushOcc (b : StageBucket) (occ : ℤ × Detail) : StageBucket :=
  { totalDurationMs := b.totalDurationMs + occ.1
    count := b.count + 1
    details := b.details ++ [occ.2] }

/-- The accumulated bucket for one stage and window over a fetched vehicle
batch (calculateStageAverages main loop). -/
def stageBucket (stageName : String) (wStart wEnd : Instant) (vehicles : List Vehicle) :
    StageBucket :=
  (vehicles.flatMap (stageVehicleOccs stageName wStart wEnd)).foldl pushOcc ⟨0, 0, []⟩

/-- Shape of a formatted per-stage result entry. -/
structure FormattedBucket where
  totalDuration : String
  count : ℕ
  average : String
  details : List Detail
deriving DecidableEq, Repr

/-- Final formatting of calculateStageAverages (dashboardRoute.js:1452-1470). -/
def formatStageBucket (b : StageBucket) : FormattedBucket :=
  { totalDuration := formatMilliseconds (b.totalDurationMs : ℚ)
    count := b.count
    average :=
      if 0 < b.count then formatMilliseconds ((b.totalDurationMs : ℚ) / (b.count : ℚ))
      else "00:00:00"
    details := b.details }

/-- The Pause/Resume/End walk of calculateBayWorkMetrics
(dashboardRoute.js:1831-1850): starting in state active at the Start event's
timestamp, each subsequent event adds the elapsed time to the bucket of the
current state, Pause and Resume switch the state, and the first End stops the
walk and closes the occurrence. -/
def bayWalk : List StageEvent → Instant → ℤ → ℤ → String →
    Option StageEvent × ℤ × ℤ
  | [], _, active, paused, _ => (none, active, paused)
  | e :: rest, lastTime, active, paused, state =>
    let duration := e.timestamp - lastTime
    let active2 := if state == "active" then active + duration else active
    let paused2 := if state == "active" then paused else paused + duration
    if e.eventType == "End" then (some e, active2, paused2)
    else
      bayWalk rest e.timestamp active2 paused2
        (if e.eventType == "Pause" then "paused"
         else if e.eventType == "Resume" then "active" else state)

/-- A closed Bay Work occurrence: total = end - start, the active and paused
accumulators of the walk, and the pushed detail record. -/
structure BayOcc where
  total : ℤ
  active : ℤ
  paused : ℤ
  detail : Detail
deriving DecidableEq, Repr

/-- JS truthiness of an optional string field (undefined and the empty string
are falsy). -/
def jsTruthy : Option String → Bool
  | none => false
  | some s => !(s == "")

/-- Grouping key of calculateBayWorkMetrics (dashboardRoute.js:1800-1809): the
workType-bayNumber pair, or none when either field is missing or empty, in
which case the event joins no group. -/
def bayWorkKey (s : StageEvent) : Option (String × String) :=
  match s.workType, s.bayNumber with
  | some w, some b => if jsTruthy (some w) && jsTruthy (some b) then some (w, b) else none
  | _, _ => none

/-- Keys in order of first appearance (JS object-literal insertion order). -/
def firstKeysAux (seen : List (String × String)) :
    List (String × String) → List (String × String)
  | [] => []
  | k :: rest =>
    if k ∈ seen then firstKeysAux seen rest else k :: firstKeysAux (k :: seen) rest

/-- Keys of the workGroups object in insertion order. -/
def firstKeys (l : List (String × String)) : List (String × String) :=
  firstKeysAux [] l

/-- The stages pushed into one workGroup, in push order. -/
def bayGroupStages (key : String × String) (bayWorkStages : List StageEvent) :
    List StageEvent :=
  bayWorkStages.filter fun s => decide (bayWorkKey s = some key)

/-- Body of the starts.forEach loop of calculateBayWorkMetrics
(dashboardRoute.js:1825-1876): walk the sorted subsequent Pause/Resume/End
events of the group; only a walk that reaches an End yields an occurrence. -/
def bayStartOcc (vehicleNumber : String) (stages : List StageEvent)
    (startEvent : StageEvent) : Option BayOcc :=
  match bayWalk
      (sortByTs (stages.filter fun s =>
        decide (startEvent.timestamp < s.timestamp) &&
          (s.eventType == "Pause" || s.eventType == "Resume" || s.eventType == "End")))
      startEvent.timestamp 0 0 "active" with
  | (some endEvent, active, paused) =>
    some { total := endEvent.timestamp - startEvent.timestamp
           active := active
           paused := paused
           detail := { vehicleNumber := vehicleNumber
                       startTime := startEvent.timestamp
                       endTime := endEvent.timestamp
                       duration :=
                         formatDuration ((endEvent.timestamp - startEvent.timestamp : ℤ) : ℚ) } }
  | (none, _, _) => none

/-- Occurrence reconstruction for one (workType, bayNumber) group. -/
def bayGroupOccs (vehicleNumber : String) (stages : List StageEvent) : List BayOcc :=
  (stages.filter fun s => s.eventType == "Start").filterMap (bayStartOcc vehicleNumber stages)

/-- Per-vehicle Bay Work occurrences (dashboardRoute.js:1795-1877): filter the
in-window events whose stage name starts with the Bay Work marker, sort them,
group them by (workType, bayNumber) and reconstruct each group. -/
def bayVehicleOccs (wStart wEnd : Instant) (v : Vehicle) : List BayOcc :=
  let bayWorkStages := sortByTs (v.stages.filter fun s =>
    jsStartsWith s.stageName "Bay Work:" &&
      decide (wStart ≤ s.timestamp) && decide (s.timestamp ≤ wEnd))
  (firstKeys (bayWorkStages.filterMap bayWorkKey)).flatMap fun k =>
    bayGroupOccs v.vehicleNumber (bayGroupStages k bayWorkStages)

/-- The overall accumulator of one window of calculateBayWorkMetrics. -/
structure BayBucket where
  totalDurationMs : ℤ
  totalPausedDurationMs : ℤ
  totalActiveDurationMs : ℤ
  count : ℕ
  details : List Detail
deriving DecidableEq, Repr

/-- The five mutations the source performs per closed Bay Work occurrence. -/
def pushBayOcc (b : BayBucket) (o : BayOcc) : BayBucket :=
  { totalDurationMs := b.totalDurationMs + o.total
    totalPausedDurationMs := b.totalPausedDurationMs + o.paused
    totalActiveDurationMs := b.totalActiveDurationMs + o.active
    count := b.count + 1
    details := b.details ++ [o.detail] }

/-- The overall bucket for one window over a vehicle batch. -/
def bayOverallBucket (wStart wEnd : Instant) (vehicles : List Vehicle) : BayBucket :=
  (vehicles.flatMap (bayVehicleOccs wStart wEnd)).foldl pushBayOcc ⟨0, 0, 0, 0, []⟩

/-- Shape of a formatted Bay Work result entry. -/
structure FormattedBayBucket where
  totalDuration : String
  activeDuration : String
  pausedDuration : String
  count : ℕ
  average : String
  details : List Detail
deriving DecidableEq, Repr

/-- Final formatting of calculateBayWorkMetrics (dashboardRoute.js:1885-1911),
used identically for the overall bucket and each byWorkType bucket; the average
divides totalActiveDurationMs (not totalDurationMs) by count. -/
def formatBayBucket (b : BayBucket) : FormattedBayBucket :=
  { totalDuration := formatDuration (b.totalDurationMs : ℚ)
    activeDuration := formatDuration (b.totalActiveDurationMs : ℚ)
    pausedDuration := formatDuration (b.totalPausedDurationMs : ℚ)
    count := b.count
    average :=
      if 0 < b.count then formatDuration ((b.totalActiveDurationMs : ℚ) / (b.count : ℚ))
      else "00:00:00"
    details := b.details }

/-- calculateSpecialStageAverages (dashboardRoute.js:1513-1516): all in-window
events of the vehicle, sorted chronologically. -/
def vehicleWindowStages (wStart wEnd : Instant) (v : Vehicle) : List StageEvent :=
  sortByTs (v.stages.filter fun s =>
    decide (wStart ≤ s.timestamp) && decide (s.timestamp ≤ wEnd))

/-- Predicate of the subsequentBayAllocations filter
(dashboardRoute.js:1551-1555): a Job Card Received + Bay Allocation Start
(stage-name matched as a string head) strictly after the given start. -/
def bayAllocAfter (startEvent s : StageEvent) : Bool :=
  jsStartsWith s.stageName "Job Card Received + Bay Allocation" &&
    s.eventType == "Start" && decide (startEvent.timestamp < s.timestamp)

/-- Subsequent bay-allocation Starts for one Additional Work Job Approval
start, in the order of the sorted window array. -/
def additionalWorkSubs (vs : List StageEvent) (startEvent : StageEvent) :
    List StageEvent :=
  vs.filter (bayAllocAfter startEvent)

/-- Closure rule of the Additional Work Job Approval block
(dashboardRoute.js:1557-1558): closed only when at least two subsequent
bay-allocation Starts exist, and then by the element at index 1. -/
def additionalWorkClose (vs : List StageEvent) (startEvent : StageEvent) :
    Option StageEvent :=
  let subs := additionalWorkSubs vs startEvent
  if 2 ≤ subs.length then subs[1]? else none

/-- The additionalApprovalStarts filter (dashboardRoute.js:1546-1548). -/
def additionalWorkStarts (vs : List StageEvent) : List StageEvent :=
  vs.filter fun s =>
    jsStartsWith s.stageName "Additional Work Job Approval" && s.eventType == "Start"

/-- Closed Additional Work Job Approval occurrences of one vehicle
(dashboardRoute.js:1550-1569): raw duration plus pushed detail. -/
def additionalWorkOccs (wStart wEnd : Instant) (v : Vehicle) : List (ℤ × Detail) :=
  let vs := vehicleWindowStages wStart wEnd v
  (additionalWorkStarts vs).filterMap fun startEvent =>
    (additionalWorkClose vs startEvent).map fun endEvent =>
      (endEvent.timestamp - startEvent.timestamp,
        { vehicleNumber := v.vehicleNumber
          startTime := startEvent.timestamp
          endTime := endEvent.timestamp
          duration := formatDuration ((endEvent.timestamp - startEvent.timestamp : ℤ) : ℚ) })

/-- calculateJobCardReceivedMetrics (dashboardRoute.js:1665-1667): in-window
filter only; unlike the other metric families the events are NOT sorted before
matching. -/
def jcrWindowStages (wStart wEnd : Instant) (v : Vehicle) : List StageEvent :=
  v.stages.filter fun s => decide (wStart ≤ s.timestamp) && decide (s.timestamp ≤ wEnd)

/-- calculateJobCardReceivedMetrics (dashboardRoute.js:1670-1691): each
bay-allocation Start is matched by vehicleStages.find to the first Bay Work
Start with a later timestamp IN ARRAY ORDER of the unsorted filtered array. -/
def jcrBayAllocationDetails (wStart wEnd : Instant) (v : Vehicle) : List Detail :=
  let vs := jcrWindowStages wStart wEnd v
  (vs.filter fun s =>
      jsStartsWith s.stageName "Job Card Received + Bay Allocation" &&
        s.eventType == "Start").filterMap fun startEvent =>
    (vs.find? fun s =>
        jsStartsWith s.stageName "Bay Work" && s.eventType == "Start" &&
          decide (startEvent.timestamp < s.timestamp)).map fun nextBayWork =>
      { vehicleNumber := v.vehicleNumber
        startTime := startEvent.timestamp
        endTime := nextBayWork.timestamp
        duration := formatDuration ((nextBayWork.timestamp - startEvent.timestamp : ℤ) : ℚ) }

/-- Value of a decimal digit character, as JS Number interprets it. -/
def digitVal (c : Char) : ℕ := c.toNat - 48

/-- Model of JS Number(...) on the decimal-digit strings this code feeds it. -/
def jsNumber (s : String) : ℕ :=
  s.data.foldl (fun n c => n * 10 + digitVal c) 0

/-- Split a character list at colons, modelling the split(":") call. -/
def splitColons : List Char → List (List Char)
  | [] => [[]]
  | c :: rest =>
    if c = ':' then [] :: splitColons rest
    else
      match splitColons rest with
      | g :: gs => (c :: g) :: gs
      | [] => [[c]]

/-- dashboardRoute.js:1747-1749: parse an HH:MM:SS detail duration back to
milliseconds as (h * 3600 + m * 60 + s) * 1000. -/
def parseDurationMs (dur : String) : ℕ :=
  match (splitColons dur.data).map (fun g => jsNumber (String.mk g)) with
  | h :: m :: s :: _ => (h * 3600 + m * 60 + s) * 1000
  | _ => 0

/-- Shape of a formatted jobCardReceived result entry. -/
structure JcrBucket where
  totalDuration : String
  count : ℕ
  average : String
  details : List Detail
deriving DecidableEq, Repr

/-- Final formatting of calculateJobCardReceivedMetrics
(dashboardRoute.js:1742-1757): count = details.length, and totalMs is
re-derived by parsing each pushed duration string; all fields keep their
initial zero values when no details exist. -/
def jcrFormat (details : List Detail) : JcrBucket :=
  let count := details.length
  if 0 < count then
    let totalMs : ℕ := details.foldl (fun sum d => sum + parseDurationMs d.duration) 0
    { totalDuration := formatDuration (totalMs : ℚ)
      count := count
      average := formatDuration ((totalMs : ℚ) / (count : ℚ))
      details := details }
  else
    { totalDuration := "00:00:00", count := 0, average := "00:00:00", details := details }

/-- /dashboard/live-status (dashboardRoute.js:858-864): group of one stage
name, the vehicle's events with that exact name in insertion order. -/
def stageGroup (name : String) (stages : List StageEvent) : List StageEvent :=
  stages.filter fun s => decide (s.stageName = name)

/-- /dashboard/live-status (dashboardRoute.js:868-870): the group's Start
entries sorted ascending by timestamp. -/
def liveStarts (entries : List StageEvent) : List StageEvent :=
  sortByTs (entries.filter fun s => s.eventType == "Start")

/-- /dashboard/live-status (dashboardRoute.js:871-873): the group's End
entries (their sort does not affect the membership test applied to them). -/
def liveEnds (entries : List StageEvent) : List StageEvent :=
  sortByTs (entries.filter fun s => s.eventType == "End")

/-- The for-loop over starts of /dashboard/live-status
(dashboardRoute.js:875-903): push the first Start with no later End into the
stage map and break; starts closed by some later End are skipped. -/
def firstUnclosed (ends : List StageEvent) : List StageEvent → List StageEvent
  | [] => []
  | st :: rest =>
    if ends.any fun e => decide (st.timestamp < e.timestamp) then firstUnclosed ends rest
    else [st]

/-- Entries one vehicle contributes to stageMap[stageName]. -/
def liveStageEntries (entries : List StageEvent) : List StageEvent :=
  firstUnclosed (liveEnds entries) (liveStarts entries)

/-- A half-open reporting window as built by the generator. -/
structure Window where
  start : Instant
  stop : Instant
deriving DecidableEq, Repr

/-- The window set utils.getDateRanges returns. -/
structure DateRanges where
  today : Window
  thisWeek : Window
  thisMonth : Window
  lastMonth : Window
deriving DecidableEq, Repr

/-- Abstract civil-calendar operations used by utils.getDateRanges: they are
parameters of the embedding because the claims about the generator concern
which clock reads flow into which window boundary, not calendar arithmetic. -/
structure Calendar where
  dayStart : Instant → Instant
  weekShift : Instant → Instant
  monthStart : Instant → Instant
  lastMonthStart : Instant → Instant
  lastMonthEnd : Instant → Instant

/-- utils.getDateRanges (dashboardRoute.js:1270-1284). The source mutates now
in place: setHours(0,0,0,0) turns it into the start of day, setDate then
shifts that value to the start of week, and the month computations read the
mutated value. Every new Date() evaluates the ambient clock, modelled as an
explicit stream indexed by call number: one read for now and one fresh read
for each of the today, thisWeek and thisMonth end boundaries (in object
literal evaluation order); the next unused index is returned. -/
def getDateRanges (cal : Calendar) (clock : ℕ → Instant) (i : ℕ) : DateRanges × ℕ :=
  let now0 := clock i
  let startOfDay := cal.dayStart now0
  let startOfWeek := cal.weekShift startOfDay
  let startOfMonth := cal.monthStart startOfWeek
  let startOfLastMonth := cal.lastMonthStart startOfWeek
  let endOfLastMonth := cal.lastMonthEnd startOfWeek
  ({ today := ⟨startOfDay, clock (i + 1)⟩
     thisWeek := ⟨startOfWeek, clock (i + 2)⟩
     thisMonth := ⟨startOfMonth, clock (i + 3)⟩
     lastMonth := ⟨startOfLastMonth, endOfLastMonth⟩ }, i + 4)

/-- Raw stage event for the error-handling model: stageName and eventType may
be missing (undefined in the stored document). -/
structure RawEvent where
  stageName : Option String
  eventType : Option String
  timestamp : Instant
  workType : Option String := none
  bayNumber : Option String := none
deriving DecidableEq, Repr

/-- s.stageName.startsWith(p) on a raw event: a TypeError when stageName is
undefined, else the head-of-string test. -/
def rawStartsWith (s : RawEvent) (p : String) : Except String Bool :=
  match s.stageName with
  | none => .error "TypeError: cannot read startsWith of undefined"
  | some n => .ok (jsStartsWith n p)

/-- Array.prototype.filter with a possibly-throwing callback: elements are
visited left to right and the first thrown error aborts the whole call. -/
def filterE {α ε : Type} (p : α → Except ε Bool) : List α → Except ε (List α)
  | [] => .ok []
  | a :: l => do
    let b ← p a
    let r ← filterE p l
    pure (if b then a :: r else r)

/-- Array.prototype.find with a possibly-throwing callback. -/
def findE {α ε : Type} (p : α → Except ε Bool) : List α → Except ε (Option α)
  | [] => .ok none
  | a :: l => do
    let b ← p a
    if b then pure (some a) else findE p l

/-- forEach with a possibly-throwing body, collecting the results; the first
thrown error aborts the whole loop. -/
def forEachE {α β ε : Type} (f : α → Except ε β) : List α → Except ε (List β)
  | [] => .ok []
  | a :: l =>
    match f a with
    | .error e => .error e
    | .ok b =>
      match forEachE f l with
      | .error e => .error e
      | .ok r => .ok (b :: r)

/-- Chronological sort of raw events. -/
def rawSortByTs (l : List RawEvent) : List RawEvent :=
  sortByKey (fun s => s.timestamp) l

/-- calculateSpecialStageAverages on raw events (dashboardRoute.js:1513-1569),
as far as the error-handling claim exercises it: the total jobCardStarts
filter whose per-start find may throw, then the possibly-throwing
additionalApprovalStarts filter and its subsequent bay-allocation filter and
index; the washing block compares stage names with === only and cannot throw,
so it is elided. Returns the Additional Work occurrence endpoints. -/
def specialVehicleAdditionalE (wStart wEnd : Instant) (stages : List RawEvent) :
    Except String (List (Instant × Instant)) := do
  let vs := rawSortByTs (stages.filter fun s =>
    decide (wStart ≤ s.timestamp) && decide (s.timestamp ≤ wEnd))
  let jobCardStarts := vs.filter fun s =>
    decide (s.stageName = some "Job Card Creation + Customer Approval") &&
      decide (s.eventType = some "Start")
  let _ ← forEachE (fun st => findE (fun s => do
      let b ← rawStartsWith s "Job Card Received + Bay Allocation"
      pure (b && decide (s.eventType = some "Start") &&
        decide (st.timestamp < s.timestamp))) vs) jobCardStarts
  let additionalApprovalStarts ← filterE (fun s => do
      let b ← rawStartsWith s "Additional Work Job Approval"
      pure (b && decide (s.eventType = some "Start"))) vs
  let occs ← forEachE (fun st => do
      let subs ← filterE (fun s => do
          let b ← rawStartsWith s "Job Card Received + Bay Allocation"
          pure (b && decide (s.eventType = some "Start") &&
            decide (st.timestamp < s.timestamp))) vs
      pure (if 2 ≤ subs.length then
        (subs[1]?).map (fun m => (st.timestamp, m.timestamp)) else none))
    additionalApprovalStarts
  pure (occs.filterMap id)

/-- A vehicle document carrying raw events. -/
structure RawVehicle where
  vehicleNumber : String
  stages : List RawEvent
deriving DecidableEq, Repr

/-- The vehicles.forEach loop of calculateSpecialStageAverages: processing is
sequential with no per-vehicle exception handling, so the first throwing
vehicle aborts the whole computation; the only catch sits at request level in
/dashboard/metrics (dashboardRoute.js:1340-1387) and discards every partial
result. -/
def specialBatchE (wStart wEnd : Instant) (vehicles : List RawVehicle) :
    Except String (List (String × List (Instant × Instant))) :=
  forEachE (fun v =>
    match specialVehicleAdditionalE wStart wEnd v.stages with
    | .error e => .error e
    | .ok occs => .ok (v.vehicleNumber, occs)) vehicles

/-- Scenario vehicle of spec section 8: Bay Work: Denting on bay B1 with
Start, a 10-minute pause, Resume and End one hour after the start. -/
def vBay : Vehicle :=
  { vehicleNumber := "V2"
    entryTime := 0
    exitTime := none
    stages :=
      [ { stageName := "Bay Work: Denting", eventType := "Start", timestamp := 0,
          workType := some "Denting", bayNumber := some "B1" },
        { stageName := "Bay Work: Denting", eventType := "Pause", timestamp := 1200000,
          workType := some "Denting", bayNumber := some "B1" },
        { stageName := "Bay Work: Denting", eventType := "Resume", timestamp := 1800000,
          workType := some "Denting", bayNumber := some "B1" },
        { stageName := "Bay Work: Denting", eventType := "End", timestamp := 3600000,
          workType := some "Denting", bayNumber := some "B1" } ] }

/-- The closed occurrence reconstructed from vBay. -/
def occBay : BayOcc :=
  { total := 3600000
    active := 3000000
    paused := 600000
    detail := { vehicleNumber := "V2", startTime := 0, endTime := 3600000,
                duration := formatDuration ((3600000 - 0 : ℤ) : ℚ) } }

/-- Vehicle with two Start events of the same stage and a single End event. -/
def vC1 : Vehicle :=
  { vehicleNumber := "V1"
    entryTime := 0
    exitTime := none
    stages :=
      [ { stageName := "Interactive Bay", eventType := "Start", timestamp := 1 },
        { stageName := "Interactive Bay", eventType := "Start", timestamp := 2 },
        { stageName := "Interactive Bay", eventType := "End", timestamp := 3 } ] }

/-- Second Start event of vC1. -/
def evS2 : StageEvent := { stageName := "Interactive Bay", eventType := "Start", timestamp := 2 }

/-- The End event of vC1. -/
def evE3 : StageEvent := { stageName := "Interactive Bay", eventType := "End", timestamp := 3 }

/-- Vehicle with one approval Start followed by three bay-allocation Starts. -/
def vC5 : Vehicle :=
  { vehicleNumber := "V5"
    entryTime := 0
    exitTime := none
    stages :=
      [ { stageName := "Additional Work Job Approval", eventType := "Start", timestamp := 1 },
        { stageName := "Job Card Received + Bay Allocation", eventType := "Start", timestamp := 2 },
        { stageName := "Job Card Received + Bay Allocation", eventType := "Start", timestamp := 3 },
        { stageName := "Job Card Received + Bay Allocation", eventType := "Start", timestamp := 4 } ] }

/-- The approval Start of vC5. -/
def evA1 : StageEvent :=
  { stageName := "Additional Work Job Approval", eventType := "Start", timestamp := 1 }

/-- Degenerate calendar for concrete evaluation: every boundary map is the
identity. -/
def calEx : Calendar :=
  { dayStart := id, weekShift := id, monthStart := id
    lastMonthStart := id, lastMonthEnd := id }

/-- Vehicle whose stages array stores the two Bay Work starts out of
chronological order. -/
def vC2a : Vehicle :=
  { vehicleNumber := "V9"
    entryTime := 0
    exitTime := none
    stages :=
      [ { stageName := "Job Card Received + Bay Allocation", eventType := "Start",
          timestamp := 1000 },
        { stageName := "Bay Work: Denting", eventType := "Start", timestamp := 3000,
          workType := some "Denting", bayNumber := some "B1" },
        { stageName := "Bay Work: Denting", eventType := "Start", timestamp := 2000,
          workType := some "Denting", bayNumber := some "B1" } ] }

/-- The same multiset of events with the two Bay Work starts swapped. -/
def vC2b : Vehicle :=
  { vehicleNumber := "V9"
    entryTime := 0
    exitTime := none
    stages :=
      [ { stageName := "Job Card Received + Bay Allocation", eventType := "Start",
          timestamp := 1000 },
        { stageName := "Bay Work: Denting", eventType := "Start", timestamp := 2000,
          workType := some "Denting", bayNumber := some "B1" },
        { stageName := "Bay Work: Denting", eventType := "Start", timestamp := 3000,
          workType := some "Denting", bayNumber := some "B1" } ] }

/-- A raw vehicle whose events are all well formed: one approval Start and two
bay-allocation Starts, yielding one closed Additional Work occurrence. -/
def rvGood : RawVehicle :=
  { vehicleNumber := "GOOD"
    stages :=
      [ { stageName := some "Additional Work Job Approval",
          eventType := some "Start", timestamp := 1 },
        { stageName := some "Job Card Received + Bay Allocation",
          eventType := some "Start", timestamp := 2 },
        { stageName := some "Job Card Received + Bay Allocation",
          eventType := some "Start", timestamp := 3 } ] }

/-- A raw vehicle with one malformed event: its stageName is missing. -/
def rvBad : RawVehicle :=
  { vehicleNumber := "BAD"
    stages := [ { stageName := none, eventType := some "Start", timestamp := 5 } ] }

/-- Vehicle whose single job-card occurrence lasts 1.5 seconds. -/
def vC8 : Vehicle :=
  { vehicleNumber := "V8"
    entryTime := 0
    exitTime := none
    stages :=
      [ { stageName := "Job Card Received + Bay Allocation", eventType := "Start",
          timestamp := 0 },
        { stageName := "Bay Work: Denting", eventType := "Start", timestamp := 1500,
          workType := some "Denting", bayNumber := some "B1" } ] }

theorem insertByKey_perm {α : Type} (key : α → ℤ) (a : α) (l : List α) :
    (insertByKey key a l).Perm (a :: l) := by
  induction l with
  | nil => simp [insertByKey]
  | cons b l ih =>
    simp only [insertByKey]
    by_cases h : key b < key a
    · simp only [h, if_pos]
      exact ((ih.cons b).trans (List.Perm.swap a b l))
    · simp [h]

theorem sortByKey_perm {α : Type} (key : α → ℤ) (l : List α) :
    (sortByKey key l).Perm l := by
  induction l with
  | nil => simp [sortByKey]
  | cons a l ih =>
    have h1 : sortByKey key (a :: l) = insertByKey key a (sortByKey key l) := rfl
    rw [h1]
    exact (insertByKey_perm key a (sortByKey key l)).trans (ih.cons a)

theorem sorted_insertByKey {α : Type} (key : α → ℤ) (a : α) (l : List α)
    (h : l.Pairwise (fun x y => key x ≤ key y)) :
    (insertByKey key a l).Pairwise (fun x y => key x ≤ key y) := by
  induction l with
  | nil => simp [insertByKey]
  | cons b l ih =>
    rcases List.pairwise_cons.mp h with ⟨hb, hl⟩
    simp only [insertByKey]
    by_cases hba : key b < key a
    · simp only [hba, if_pos]
      refine List.pairwise_cons.mpr ⟨?_, ih hl⟩
      intro x hx
      rcases List.mem_cons.mp ((insertByKey_perm key a l).mem_iff.mp hx) with hxa | hxl
      · subst hxa; exact le_of_lt hba
      · exact hb x hxl
    · simp only [hba, if_neg, not_false_iff]
      refine List.pairwise_cons.mpr ⟨?_, h⟩
      intro x hx
      rcases List.mem_cons.mp hx with hxb | hxl
      · subst hxb; exact le_of_not_lt hba
      · exact le_trans (le_of_not_lt hba) (hb x hxl)

theorem sorted_sortByKey {α : Type} (key : α → ℤ) (l : List α) :
    (sortByKey key l).Pairwise (fun x y => key x ≤ key y) := by
  induction l with
  | nil => simp [sortByKey]
  | cons a l ih => exact sorted_insertByKey key a (sortByKey key l) ih

theorem sortByTs_perm (l : List StageEvent) : (sortByTs l).Perm l :=
  sortByKey_perm _ l

theorem sorted_sortByTs (l : List StageEvent) :
    (sortByTs l).Pairwise (fun x y => x.timestamp ≤ y.timestamp) :=
  sorted_sortByKey _ l

theorem formatMilliseconds_eq_formatDuration (ms : ℚ) :
    formatMilliseconds ms = formatDuration ms := by
  unfold formatMilliseconds formatMinutes formatDuration
  have harg : ms / 60000 * 60 = ms / 1000 := by
    field_simp
    ring
  rw [harg]

/-- Evaluation lemma: formatDuration on the cast of an integer quotient reduces
to integer arithmetic (JS call sites divide a non-negative total by a count). -/
theorem formatDuration_intCast_div_natCast (n : ℤ) (d : ℕ) :
    formatDuration ((n : ℚ) / (d : ℚ)) = fmtSec ((n / (d * 1000 : ℕ)).toNat) := by
  unfold formatDuration
  congr 2
  rw [div_div, show ((d : ℚ) * 1000) = ((d * 1000 : ℕ) : ℚ) by push_cast; ring]
  exact Rat.floor_intCast_div_natCast n (d * 1000)

theorem formatDuration_intCast (n : ℤ) :
    formatDuration (n : ℚ) = fmtSec ((n / 1000).toNat) := by
  have h := formatDuration_intCast_div_natCast n 1
  simpa using h

/-- find? on a timestamp-sorted list returns an element whose timestamp is
minimal among all satisfying elements. -/
theorem find?_min_ts (p : StageEvent → Bool) (l : List StageEvent)
    (hsort : l.Pairwise fun x y => x.timestamp ≤ y.timestamp)
    (m : StageEvent) (h : l.find? p = some m) :
    ∀ x ∈ l, p x → m.timestamp ≤ x.timestamp := by
  rcases List.find?_eq_some.mp h with ⟨hpm, as, bs, rfl, hfail⟩
  intro x hx hpx
  rcases List.mem_append.mp hx with hxa | hxb
  · exact absurd hpx (by simpa using hfail x hxa)
  · rcases List.mem_cons.mp hxb with rfl | hxbs
    · exact le_refl _
    · have h2 := (List.pairwise_append.mp hsort).2.1
      exact (List.pairwise_cons.mp h2).1 x hxbs

/-- The walk's two accumulators telescope: on reaching an End event their sum
grows by exactly the time elapsed from the walk's starting point. -/
theorem bayWalk_closed_sum :
    ∀ (events : List StageEvent) (lastTime : Instant) (active paused : ℤ)
      (state : String) (endEvent : StageEvent) (a p : ℤ),
      bayWalk events lastTime active paused state = (some endEvent, a, p) →
      a + p = active + paused + (endEvent.timestamp - lastTime) := by
  intro events
  induction events with
  | nil =>
    intro lastTime active paused state endEvent a p h
    simp [bayWalk] at h
  | cons e rest ih =>
    intro lastTime active paused state endEvent a p h
    simp only [bayWalk] at h
    by_cases hEnd : e.eventType == "End"
    · rw [if_pos hEnd] at h
      simp only [Prod.mk.injEq, Option.some.injEq] at h
      obtain ⟨h1, h2, h3⟩ := h
      subst h1
      by_cases hstate : state == "active" <;>
        simp only [hstate, if_pos, if_neg, if_true, if_false, Bool.false_eq_true] at h2 h3 <;>
        omega
    · rw [if_neg hEnd] at h
      have := ih e.timestamp
        (if state == "active" then active + (e.timestamp - lastTime) else active)
        (if state == "active" then paused else paused + (e.timestamp - lastTime))
        (if e.eventType == "Pause" then "paused"
         else if e.eventType == "Resume" then "active" else state)
        endEvent a p h
      by_cases hstate : state == "active" <;>
        simp only [hstate, if_pos, if_neg, if_true, if_false, Bool.false_eq_true] at this <;>
        omega

/-- An occurrence produced by one start's walk satisfies the telescoping
identity active + paused = total. -/
theorem bayStartOcc_sum (vehicleNumber : String) (stages : List StageEvent)
    (startEvent : StageEvent) (o : BayOcc)
    (h : bayStartOcc vehicleNumber stages startEvent = some o) :
    o.active + o.paused = o.total := by
  unfold bayStartOcc at h
  rcases hw : bayWalk
      (sortByTs (stages.filter fun s =>
        decide (startEvent.timestamp < s.timestamp) &&
          (s.eventType == "Pause" || s.eventType == "Resume" || s.eventType == "End")))
      startEvent.timestamp 0 0 "active" with ⟨fst, a, p⟩
  rw [hw] at h
  cases fst with
  | none => simp at h
  | some endEvent =>
    simp only [Option.some.injEq] at h
    have hsum := bayWalk_closed_sum _ _ _ _ _ _ _ _ hw
    subst h
    simpa using hsum

/-- C3: for every closed paused-tracking (Bay Work) occurrence the accumulated
active duration plus the accumulated paused duration equals exactly the End
event's timestamp minus the Start event's timestamp, which is the reported
totalMs. -/
theorem claim_C3 (wStart wEnd : Instant) (v : Vehicle) (o : BayOcc)
    (ho : o ∈ bayVehicleOccs wStart wEnd v) :
    o.active + o.paused = o.total := by
  unfold bayVehicleOccs at ho
  rw [List.mem_flatMap] at ho
  obtain ⟨k, _, hko⟩ := ho
  unfold bayGroupOccs at hko
  rw [List.mem_filterMap] at hko
  obtain ⟨startEvent, _, hmatch⟩ := hko
  exact bayStartOcc_sum _ _ _ _ hmatch

theorem bayVehicleOccs_vBay : bayVehicleOccs 0 4000000 vBay = [occBay] := rfl

theorem claim_C3_witness :
    occBay ∈ bayVehicleOccs 0 4000000 vBay ∧ occBay.active + occBay.paused = occBay.total := by
  have hm : occBay ∈ bayVehicleOccs 0 4000000 vBay := by
    rw [bayVehicleOccs_vBay]
    exact List.mem_singleton_self occBay
  exact ⟨hm, claim_C3 0 4000000 vBay occBay hm⟩

/-- The window-restricted event list of a stage is chronologically sorted. -/
theorem sorted_stageEventsInWindow (stageName : String) (wStart wEnd : Instant)
    (v : Vehicle) :
    (stageEventsInWindow stageName wStart wEnd v).Pairwise
      (fun x y => x.timestamp ≤ y.timestamp) := by
  unfold stageEventsInWindow
  exact sorted_sortByTs _

/-- C1 (amended): in the Start/End matching of calculateStageAverages every
Start event is matched, independently of the other Starts, to the earliest End
event of the same stage in the window with a strictly later timestamp, and the
corresponding occurrence is recorded; closing events are not consumed, so the
same End event may serve as the closer of several Starts and two closed
occurrences of the same stage for the same vehicle can report the same closing
event. -/
theorem claim_C1 (stageName : String) (wStart wEnd : Instant) (v : Vehicle)
    (startEvent endEvent : StageEvent)
    (hs : startEvent ∈ (stageEventsInWindow stageName wStart wEnd v).filter
      (fun e => e.eventType == "Start"))
    (hm : ((stageEventsInWindow stageName wStart wEnd v).filter
      (fun e => e.eventType == "End")).find?
        (fun e => decide (startEvent.timestamp < e.timestamp)) = some endEvent) :
    (endEvent.timestamp - startEvent.timestamp,
      ({ vehicleNumber := v.vehicleNumber
         startTime := startEvent.timestamp
         endTime := endEvent.timestamp
         duration := formatMilliseconds ((endEvent.timestamp - startEvent.timestamp : ℤ) : ℚ) } :
        Detail))
      ∈ stageVehicleOccs stageName wStart wEnd v ∧
    endEvent ∈ (stageEventsInWindow stageName wStart wEnd v).filter
      (fun e => e.eventType == "End") ∧
    startEvent.timestamp < endEvent.timestamp ∧
    ∀ e ∈ (stageEventsInWindow stageName wStart wEnd v).filter
      (fun e => e.eventType == "End"),
      startEvent.timestamp < e.timestamp → endEvent.timestamp ≤ e.timestamp := by
  refine ⟨?_, ?_, ?_, ?_⟩
  · unfold stageVehicleOccs
    rw [List.mem_filterMap]
    exact ⟨startEvent, hs, by rw [hm]; rfl⟩
  · exact List.mem_of_find?_eq_some hm
  · simpa using List.find?_some hm
  · intro e he hlt
    have hsorted : ((stageEventsInWindow stageName wStart wEnd v).filter
        (fun e => e.eventType == "End")).Pairwise
        (fun x y => x.timestamp ≤ y.timestamp) :=
      List.Pairwise.sublist (List.filter_sublist _)
        (sorted_stageEventsInWindow stageName wStart wEnd v)
    exact find?_min_ts _ _ hsorted endEvent hm e he (by simpa using hlt)

/-- C1 counterexample: on vC1 both Start events (timestamps 1 and 2) are
matched to the single End event at timestamp 3, so two closed occurrences of
the same stage for the same vehicle report the same closing event — the closer
consumed by the first Start is reused by the second. -/
theorem claim_C1_counterexample :
    ((stageVehicleOccs "Interactive Bay" 0 10 vC1).map fun o => (o.2.startTime, o.2.endTime)) =
      [(1, 3), (2, 3)] := by decide

theorem claim_C1_witness :
    evS2 ∈ (stageEventsInWindow "Interactive Bay" 0 10 vC1).filter
      (fun e => e.eventType == "Start") ∧
    ((stageEventsInWindow "Interactive Bay" 0 10 vC1).filter
      (fun e => e.eventType == "End")).find?
        (fun e => decide (evS2.timestamp < e.timestamp)) = some evE3 ∧
    evS2.timestamp < evE3.timestamp :=
  ⟨by decide, by decide,
    (claim_C1 "Interactive Bay" 0 10 vC1 evS2 evE3 (by decide) (by decide)).2.2.1⟩

/-- The full in-window event list is chronologically sorted. -/
theorem sorted_vehicleWindowStages (wStart wEnd : Instant) (v : Vehicle) :
    (vehicleWindowStages wStart wEnd v).Pairwise
      (fun x y => x.timestamp ≤ y.timestamp) := by
  unfold vehicleWindowStages
  exact sorted_sortByTs _

/-- C5: an Additional Work Job Approval Start occurrence is closed exactly
when at least two Job Card Received + Bay Allocation Starts with strictly
later timestamps exist among the vehicle's in-window events; when closed, the
end event is the element at index 1 of the chronologically sorted list of
those Starts (the second in ascending timestamp order) and the recorded
occurrence duration is that event's timestamp minus the approval Start's
timestamp. -/
theorem claim_C5 (wStart wEnd : Instant) (v : Vehicle) (st : StageEvent)
    (hst : st ∈ additionalWorkStarts (vehicleWindowStages wStart wEnd v)) :
    ((additionalWorkClose (vehicleWindowStages wStart wEnd v) st).isSome ↔
      2 ≤ (v.stages.filter fun s => bayAllocAfter st s &&
        (decide (wStart ≤ s.timestamp) && decide (s.timestamp ≤ wEnd))).length) ∧
    (additionalWorkSubs (vehicleWindowStages wStart wEnd v) st).Pairwise
      (fun x y => x.timestamp ≤ y.timestamp) ∧
    additionalWorkClose (vehicleWindowStages wStart wEnd v) st =
      (additionalWorkSubs (vehicleWindowStages wStart wEnd v) st)[1]? ∧
    ∀ m, additionalWorkClose (vehicleWindowStages wStart wEnd v) st = some m →
      (m.timestamp - st.timestamp,
        ({ vehicleNumber := v.vehicleNumber
           startTime := st.timestamp
           endTime := m.timestamp
           duration := formatDuration ((m.timestamp - st.timestamp : ℤ) : ℚ) } : Detail))
        ∈ additionalWorkOccs wStart wEnd v := by
  have hlen : (additionalWorkSubs (vehicleWindowStages wStart wEnd v) st).length =
      (v.stages.filter fun s => bayAllocAfter st s &&
        (decide (wStart ≤ s.timestamp) && decide (s.timestamp ≤ wEnd))).length := by
    unfold additionalWorkSubs vehicleWindowStages
    rw [← List.countP_eq_length_filter, ← List.countP_eq_length_filter,
      (sortByTs_perm _).countP_eq, List.countP_filter]
  refine ⟨?_, ?_, ?_, ?_⟩
  · unfold additionalWorkClose
    by_cases h2 : 2 ≤ (additionalWorkSubs (vehicleWindowStages wStart wEnd v) st).length
    · rw [if_pos h2]
      constructor
      · intro _; omega
      · intro _
        have h1 : 1 < (additionalWorkSubs (vehicleWindowStages wStart wEnd v) st).length := by
          omega
        simp [List.getElem?_eq_getElem h1]
    · rw [if_neg h2]
      simp only [Option.isSome_none, Bool.false_eq_true, false_iff]
      omega
  · exact List.Pairwise.sublist (List.filter_sublist _)
      (sorted_vehicleWindowStages wStart wEnd v)
  · unfold additionalWorkClose
    by_cases h2 : 2 ≤ (additionalWorkSubs (vehicleWindowStages wStart wEnd v) st).length
    · rw [if_pos h2]
    · rw [if_neg h2, List.getElem?_eq_none (by omega)]
  · intro m hm
    unfold additionalWorkOccs
    rw [List.mem_filterMap]
    exact ⟨st, hst, by rw [hm]; rfl⟩

theorem claim_C5_witness :
    evA1 ∈ additionalWorkStarts (vehicleWindowStages 0 10 vC5) ∧
    additionalWorkClose (vehicleWindowStages 0 10 vC5) evA1 =
      (additionalWorkSubs (vehicleWindowStages 0 10 vC5) evA1)[1]? ∧
    (additionalWorkClose (vehicleWindowStages 0 10 vC5) evA1).isSome :=
  ⟨by decide, (claim_C5 0 10 vC5 evA1 (by decide)).2.2.1, by decide⟩

/-- The push-and-break loop of the live view returns at most one entry. -/
theorem firstUnclosed_length (ends : List StageEvent) (l : List StageEvent) :
    (firstUnclosed ends l).length ≤ 1 := by
  induction l with
  | nil => simp [firstUnclosed]
  | cons st rest ih =>
    unfold firstUnclosed
    by_cases h : ends.any fun e => decide (st.timestamp < e.timestamp)
    · simpa [h] using ih
    · simp [h]

/-- Any entry the push-and-break loop returns is a member of the start list
with no later end, and is earliest among all such starts. -/
theorem firstUnclosed_spec (ends : List StageEvent) (l : List StageEvent)
    (hsort : l.Pairwise fun x y => x.timestamp ≤ y.timestamp) :
    ∀ x ∈ firstUnclosed ends l,
      x ∈ l ∧ (∀ e ∈ ends, ¬ x.timestamp < e.timestamp) ∧
        ∀ u ∈ l, (∀ e ∈ ends, ¬ u.timestamp < e.timestamp) →
          x.timestamp ≤ u.timestamp := by
  induction l with
  | nil => intro x hx; simp [firstUnclosed] at hx
  | cons st rest ih =>
    intro x hx
    rcases List.pairwise_cons.mp hsort with ⟨hst, hrest⟩
    unfold firstUnclosed at hx
    by_cases h : ends.any fun e => decide (st.timestamp < e.timestamp)
    · rw [if_pos h] at hx
      obtain ⟨hxl, hopen, hmin⟩ := ih hrest x hx
      refine ⟨List.mem_cons_of_mem _ hxl, hopen, ?_⟩
      intro u hu hopen_u
      rcases List.mem_cons.mp hu with rfl | hu2
      · rcases List.any_eq_true.mp h with ⟨e, he, hlt⟩
        exact absurd (of_decide_eq_true hlt) (hopen_u e he)
      · exact hmin u hu2 hopen_u
    · rw [if_neg h] at hx
      have hx' : x = st := List.mem_singleton.mp hx
      subst hx'
      refine ⟨List.mem_cons_self _ _, ?_, ?_⟩
      · intro e he hlt
        exact h (List.any_eq_true.mpr ⟨e, he, decide_eq_true hlt⟩)
      · intro u hu _
        rcases List.mem_cons.mp hu with rfl | hu2
        · exact le_refl _
        · exact hst u hu2

/-- C10: in the live-status view, for every vehicle and stage name the
stage-wise map receives at most one open entry from that vehicle, and any
reported entry is an unclosed Start of the group that is earliest among all
unclosed Starts; the remaining unclosed Starts are suppressed by the break. -/
theorem claim_C10 (stages : List StageEvent) (name : String) :
    (liveStageEntries (stageGroup name stages)).length ≤ 1 ∧
    ∀ x ∈ liveStageEntries (stageGroup name stages),
      x ∈ stageGroup name stages ∧ x.eventType = "Start" ∧
      (∀ e ∈ stageGroup name stages, e.eventType = "End" →
        e.timestamp ≤ x.timestamp) ∧
      ∀ u ∈ stageGroup name stages, u.eventType = "Start" →
        (∀ e ∈ stageGroup name stages, e.eventType = "End" →
          e.timestamp ≤ u.timestamp) →
        x.timestamp ≤ u.timestamp := by
  constructor
  · exact firstUnclosed_length _ _
  · intro x hx
    have hsorted : (liveStarts (stageGroup name stages)).Pairwise
        (fun x y => x.timestamp ≤ y.timestamp) := sorted_sortByKey _ _
    obtain ⟨hxl, hopen, hmin⟩ := firstUnclosed_spec _ _ hsorted x hx
    have hmemStart : ∀ y, y ∈ liveStarts (stageGroup name stages) ↔
        y ∈ stageGroup name stages ∧ y.eventType = "Start" := by
      intro y
      unfold liveStarts
      rw [(sortByTs_perm _).mem_iff, List.mem_filter]
      simp
    have hmemEnd : ∀ y, y ∈ liveEnds (stageGroup name stages) ↔
        y ∈ stageGroup name stages ∧ y.eventType = "End" := by
      intro y
      unfold liveEnds
      rw [(sortByTs_perm _).mem_iff, List.mem_filter]
      simp
    obtain ⟨hxg, hxStart⟩ := (hmemStart x).mp hxl
    refine ⟨hxg, hxStart, ?_, ?_⟩
    · intro e heg heEnd
      exact Int.not_lt.mp (hopen e ((hmemEnd e).mpr ⟨heg, heEnd⟩))
    · intro u hug huStart hopen_u
      refine hmin u ((hmemStart u).mpr ⟨hug, huStart⟩) ?_
      intro e he
      obtain ⟨heg, heEnd⟩ := (hmemEnd e).mp he
      exact Int.not_lt.mpr (hopen_u e heg heEnd)

/-- Joining three strings with colons is plain concatenation. -/
theorem intercalate_three (a b c : String) :
    String.intercalate ":" [a, b, c] = a ++ ":" ++ b ++ ":" ++ c := rfl

/-- The left-padded field is always at least two characters long. -/
theorem two_le_padTwo_length (s : String) : 2 ≤ (padTwo s).length := by
  unfold padTwo
  rw [String.length_append]
  have hmk : (String.mk (List.replicate (2 - s.length) '0')).length =
      2 - s.length := by
    show (List.replicate (2 - s.length) '0').length = 2 - s.length
    simp
  rw [hmk]
  omega

/-- C9: for every non-negative millisecond duration the formatter returns a
colon-joined HH:MM:SS string with each field zero-padded to at least two
digits, minutes and seconds below 60, the encoded value equal to the input
truncated (not rounded) to whole seconds, and the hours field the exact
quotient by 3600 with no wraparound at 24. -/
theorem claim_C9 (ms : ℚ) (hms : 0 ≤ ms) :
    ∃ h m s : ℕ,
      formatDuration ms =
        padTwo (Nat.repr h) ++ ":" ++ padTwo (Nat.repr m) ++ ":" ++ padTwo (Nat.repr s) ∧
      m < 60 ∧ s < 60 ∧
      ((h * 3600 + m * 60 + s : ℕ) : ℤ) = ⌊ms / 1000⌋ ∧
      h = (⌊ms / 1000⌋).toNat / 3600 ∧
      2 ≤ (padTwo (Nat.repr h)).length ∧
      2 ≤ (padTwo (Nat.repr m)).length ∧
      2 ≤ (padTwo (Nat.repr s)).length := by
  have h0 : (0 : ℤ) ≤ ⌊ms / 1000⌋ :=
    Int.floor_nonneg.mpr (div_nonneg hms (by norm_num))
  refine ⟨(⌊ms / 1000⌋).toNat / 3600, (⌊ms / 1000⌋).toNat % 3600 / 60,
    (⌊ms / 1000⌋).toNat % 60, ?_, by omega, by omega, by omega, rfl,
    two_le_padTwo_length _, two_le_padTwo_length _, two_le_padTwo_length _⟩
  unfold formatDuration fmtSec
  simp only [List.map]
  exact intercalate_three _ _ _

theorem claim_C9_witness :
    (0 : ℚ) ≤ 90061500 ∧
    ∃ h m s : ℕ,
      formatDuration (90061500 : ℚ) =
        padTwo (Nat.repr h) ++ ":" ++ padTwo (Nat.repr m) ++ ":" ++ padTwo (Nat.repr s) ∧
      m < 60 ∧ s < 60 ∧
      ((h * 3600 + m * 60 + s : ℕ) : ℤ) = ⌊(90061500 : ℚ) / 1000⌋ ∧
      h = (⌊(90061500 : ℚ) / 1000⌋).toNat / 3600 ∧
      2 ≤ (padTwo (Nat.repr h)).length ∧
      2 ≤ (padTwo (Nat.repr m)).length ∧
      2 ≤ (padTwo (Nat.repr s)).length :=
  ⟨by norm_num, claim_C9 90061500 (by norm_num)⟩

/-- C6 counterexample: with a clock that advances one unit per read, the today
and thisWeek windows of a single invocation already carry different end
instants (each end boundary is a fresh now, not a shared capture), and a
second invocation within the same request returns different windows. -/
theorem claim_C6_counterexample :
    (getDateRanges calEx (fun n => (n : ℤ)) 0).1.today.stop ≠
      (getDateRanges calEx (fun n => (n : ℤ)) 0).1.thisWeek.stop ∧
    (getDateRanges calEx (fun n => (n : ℤ)) 0).1 ≠
      (getDateRanges calEx (fun n => (n : ℤ)) 4).1 := by
  decide

/-- C6 (amended): the start boundaries all derive from the single initial now
read, but each of the today, thisWeek and thisMonth end boundaries is a fresh
clock read rather than a shared capture; the generated window set is therefore
reproducible across invocations exactly when the clock does not advance
between reads — in particular, under a constant clock any two invocations
yield identical window boundaries. -/
theorem claim_C6 (cal : Calendar) (clock : ℕ → Instant)
    (hconst : ∀ n m : ℕ, clock n = clock m) (i j : ℕ) :
    (getDateRanges cal clock i).1 = (getDateRanges cal clock j).1 := by
  simp only [getDateRanges]
  rw [hconst i j, hconst (i + 1) (j + 1), hconst (i + 2) (j + 2),
    hconst (i + 3) (j + 3)]

theorem claim_C6_witness :
    (∀ n m : ℕ, (fun _ : ℕ => (5 : ℤ)) n = (fun _ : ℕ => (5 : ℤ)) m) ∧
    (getDateRanges calEx (fun _ : ℕ => (5 : ℤ)) 0).1 =
      (getDateRanges calEx (fun _ : ℕ => (5 : ℤ)) 4).1 :=
  ⟨fun _ _ => rfl, claim_C6 calEx (fun _ : ℕ => (5 : ℤ)) (fun _ _ => rfl) 0 4⟩

/-- C2 (code bug): calculateJobCardReceivedMetrics matches each bay-allocation
Start with vehicleStages.find on the UNSORTED in-window array, so the matched
end event depends on the array order: the same multiset of events stored in
two different orders yields two different reconstructed intervals (end 3000
versus end 2000), contradicting the required order-independence. -/
theorem claim_C2_code_bug :
    vC2a.stages.Perm vC2b.stages ∧
    ((jcrBayAllocationDetails 0 10000 vC2a).map fun d => (d.startTime, d.endTime)) =
      [(1000, 3000)] ∧
    ((jcrBayAllocationDetails 0 10000 vC2b).map fun d => (d.startTime, d.endTime)) =
      [(1000, 2000)] :=
  ⟨by decide, by decide, by decide⟩

/-- C4 counterexample: in the Bay Work family the reported average is the
formatted totalActiveDurationMs / count, not totalDurationMs / count; on vBay
the overall bucket has totalDurationMs 3600000 and count 1, so the claimed
average would be "01:00:00", but the reported average is "00:50:00". -/
theorem claim_C4_counterexample :
    (formatBayBucket (bayOverallBucket 0 4000000 [vBay])).average = "00:50:00" ∧
    formatDuration (((bayOverallBucket 0 4000000 [vBay]).totalDurationMs : ℚ) /
      ((bayOverallBucket 0 4000000 [vBay]).count : ℚ)) = "01:00:00" ∧
    (formatBayBucket (bayOverallBucket 0 4000000 [vBay])).average ≠
      formatDuration (((bayOverallBucket 0 4000000 [vBay]).totalDurationMs : ℚ) /
        ((bayOverallBucket 0 4000000 [vBay]).count : ℚ)) := by
  have hA : (bayOverallBucket 0 4000000 [vBay]).totalActiveDurationMs = 3000000 := by
    decide
  have hT : (bayOverallBucket 0 4000000 [vBay]).totalDurationMs = 3600000 := by
    decide
  have hC : (bayOverallBucket 0 4000000 [vBay]).count = 1 := by decide
  have h1 : (formatBayBucket (bayOverallBucket 0 4000000 [vBay])).average = "00:50:00" := by
    simp only [formatBayBucket]
    rw [hA, hC]
    norm_num
    rw [show (3000000 : ℚ) = ((3000000 : ℤ) : ℚ) by norm_num, formatDuration_intCast]
    decide
  have h2 : formatDuration (((bayOverallBucket 0 4000000 [vBay]).totalDurationMs : ℚ) /
      ((bayOverallBucket 0 4000000 [vBay]).count : ℚ)) = "01:00:00" := by
    rw [hT, hC, formatDuration_intCast_div_natCast 3600000 1]
    decide
  exact ⟨h1, h2, by rw [h1, h2]; decide⟩

/-- C4 (amended): in the stage-averages family the reported average is the
formatted totalDurationMs / count when count > 0 and "00:00:00" when count is
zero, as claimed; in the Bay Work family the average divides
totalActiveDurationMs, not totalDurationMs, by count (zero string when the
count is zero). -/
theorem claim_C4 (stageName : String) (wStart wEnd : Instant)
    (vehicles : List Vehicle) :
    ((stageBucket stageName wStart wEnd vehicles).count = 0 →
      (formatStageBucket (stageBucket stageName wStart wEnd vehicles)).average =
        "00:00:00") ∧
    (0 < (stageBucket stageName wStart wEnd vehicles).count →
      (formatStageBucket (stageBucket stageName wStart wEnd vehicles)).average =
        formatMilliseconds
          (((stageBucket stageName wStart wEnd vehicles).totalDurationMs : ℚ) /
            ((stageBucket stageName wStart wEnd vehicles).count : ℚ))) ∧
    ((bayOverallBucket wStart wEnd vehicles).count = 0 →
      (formatBayBucket (bayOverallBucket wStart wEnd vehicles)).average =
        "00:00:00") ∧
    (0 < (bayOverallBucket wStart wEnd vehicles).count →
      (formatBayBucket (bayOverallBucket wStart wEnd vehicles)).average =
        formatDuration
          (((bayOverallBucket wStart wEnd vehicles).totalActiveDurationMs : ℚ) /
            ((bayOverallBucket wStart wEnd vehicles).count : ℚ))) := by
  refine ⟨?_, ?_, ?_, ?_⟩ <;> intro h <;> simp [formatStageBucket, formatBayBucket, h]

/-- C7 counterexample: alone, the good vehicle produces its aggregate, but as
soon as the batch also contains a vehicle with one malformed event (missing
stageName), the special-stage computation throws while filtering and the whole
batch computation returns an error: the malformed event is not skipped, and no
partial results survive for the unaffected vehicle. -/
theorem claim_C7_counterexample :
    specialBatchE 0 100 [rvGood] = .ok [("GOOD", [(1, 3)])] ∧
    specialBatchE 0 100 [rvGood, rvBad] =
      .error "TypeError: cannot read startsWith of undefined" :=
  ⟨rfl, rfl⟩

/-- A single failing element aborts the whole forEach loop with an error. -/
theorem forEachE_error {α β ε : Type} (f : α → Except ε β) :
    ∀ (l : List α) (a : α), a ∈ l → ∀ e, f a = .error e →
      ∃ e2, forEachE f l = .error e2 := by
  intro l
  induction l with
  | nil => intro a ha; cases ha
  | cons b rest ih =>
    intro a ha e herr
    rcases hb : f b with eb | vb
    · exact ⟨eb, by simp [forEachE, hb]⟩
    · rcases List.mem_cons.mp ha with rfl | ha2
      · rw [hb] at herr; cases herr
      · obtain ⟨e2, he2⟩ := ih a ha2 e herr
        exact ⟨e2, by simp [forEachE, hb, he2]⟩

/-- Dropping malformed Bay Work events (missing or empty workType/bayNumber)
from the grouped array changes no group's contents. -/
theorem bayGroupStages_filter_isSome (k : String × String) (l : List StageEvent) :
    bayGroupStages k (l.filter fun s => (bayWorkKey s).isSome) = bayGroupStages k l := by
  unfold bayGroupStages
  rw [List.filter_filter]
  apply List.filter_congr
  intro s _
  cases h : bayWorkKey s <;> simp [h]

/-- Dropping malformed Bay Work events changes no grouping key. -/
theorem filterMap_bayWorkKey_filter_isSome (l : List StageEvent) :
    (l.filter fun s => (bayWorkKey s).isSome).filterMap bayWorkKey =
      l.filterMap bayWorkKey := by
  induction l with
  | nil => rfl
  | cons a rest ih =>
    cases h : bayWorkKey a <;>
      simp [List.filter_cons, List.filterMap_cons, h, ih]

/-- C7 (amended): a Bay Work event missing workType or bayNumber joins no
group and contributes to no occurrence — removing all such events leaves every
reconstructed group occurrence unchanged — but one vehicle whose special-stage
processing throws (for instance on an event with a missing stageName, see the
counterexample) makes the whole batch computation return an error: per-vehicle
errors are not isolated and no partial aggregates are produced. -/
theorem claim_C7 :
    (∀ (vehicleNumber : String) (bayWorkStages : List StageEvent),
      ((firstKeys ((bayWorkStages.filter fun s =>
          (bayWorkKey s).isSome).filterMap bayWorkKey)).flatMap fun k =>
        bayGroupOccs vehicleNumber (bayGroupStages k (bayWorkStages.filter fun s =>
          (bayWorkKey s).isSome))) =
      ((firstKeys (bayWorkStages.filterMap bayWorkKey)).flatMap fun k =>
        bayGroupOccs vehicleNumber (bayGroupStages k bayWorkStages))) ∧
    (∀ (wStart wEnd : Instant) (vehicles : List RawVehicle),
      (∃ v ∈ vehicles, ∃ e, specialVehicleAdditionalE wStart wEnd v.stages = .error e) →
      ∃ e, specialBatchE wStart wEnd vehicles = .error e) := by
  constructor
  · intro vehicleNumber bayWorkStages
    simp only [filterMap_bayWorkKey_filter_isSome, bayGroupStages_filter_isSome]
  · intro wStart wEnd vehicles h
    obtain ⟨v, hv, e, herr⟩ := h
    exact forEachE_error _ vehicles v hv e (by rw [herr])

theorem claim_C7_witness :
    (∃ v ∈ ([rvGood, rvBad] : List RawVehicle), ∃ e,
      specialVehicleAdditionalE 0 100 v.stages = .error e) ∧
    ∃ e, specialBatchE 0 100 [rvGood, rvBad] = .error e :=
  have hmem : rvBad ∈ ([rvGood, rvBad] : List RawVehicle) :=
    List.mem_cons_of_mem _ (List.mem_cons_self _ _)
  have herr : specialVehicleAdditionalE 0 100 rvBad.stages =
      .error "TypeError: cannot read startsWith of undefined" := rfl
  ⟨⟨rvBad, hmem, _, herr⟩,
    claim_C7.2 0 100 [rvGood, rvBad] ⟨rvBad, hmem, _, herr⟩⟩

/-- Unfolding the three per-occurrence mutations of the stage-averages
accumulator over a whole occurrence list. -/
theorem foldl_pushOcc (occs : List (ℤ × Detail)) :
    ∀ b : StageBucket,
      (occs.foldl pushOcc b).count = b.count + occs.length ∧
      (occs.foldl pushOcc b).details = b.details ++ occs.map Prod.snd ∧
      (occs.foldl pushOcc b).totalDurationMs =
        b.totalDurationMs + (occs.map Prod.fst).sum := by
  induction occs with
  | nil => intro b; simp
  | cons o rest ih =>
    intro b
    obtain ⟨h1, h2, h3⟩ := ih (pushOcc b o)
    refine ⟨?_, ?_, ?_⟩
    · rw [List.foldl_cons, h1]; simp [pushOcc]; omega
    · rw [List.foldl_cons, h2]; simp [pushOcc]
    · rw [List.foldl_cons, h3]; simp [pushOcc]; ring

/-- Unfolding the five per-occurrence mutations of the Bay Work accumulator
over a whole occurrence list. -/
theorem foldl_pushBayOcc (occs : List BayOcc) :
    ∀ b : BayBucket,
      (occs.foldl pushBayOcc b).count = b.count + occs.length ∧
      (occs.foldl pushBayOcc b).details = b.details ++ occs.map BayOcc.detail ∧
      (occs.foldl pushBayOcc b).totalDurationMs =
        b.totalDurationMs + (occs.map BayOcc.total).sum := by
  induction occs with
  | nil => intro b; simp
  | cons o rest ih =>
    intro b
    obtain ⟨h1, h2, h3⟩ := ih (pushBayOcc b o)
    refine ⟨?_, ?_, ?_⟩
    · rw [List.foldl_cons, h1]; simp [pushBayOcc]; omega
    · rw [List.foldl_cons, h2]; simp [pushBayOcc]
    · rw [List.foldl_cons, h3]; simp [pushBayOcc]; ring

/-- Every stage-averages occurrence stores its raw duration as the difference
of the detail's recorded endpoints. -/
theorem stageVehicleOccs_shape (stageName : String) (wStart wEnd : Instant)
    (v : Vehicle) :
    ∀ o ∈ stageVehicleOccs stageName wStart wEnd v,
      o.1 = o.2.endTime - o.2.startTime := by
  intro o ho
  unfold stageVehicleOccs at ho
  rw [List.mem_filterMap] at ho
  obtain ⟨s, _, hmap⟩ := ho
  rw [Option.map_eq_some'] at hmap
  obtain ⟨endEvent, _, rfl⟩ := hmap
  rfl

/-- Every Bay Work occurrence stores its total as the difference of the
detail's recorded endpoints. -/
theorem bayStartOcc_shape (vehicleNumber : String) (stages : List StageEvent)
    (startEvent : StageEvent) (o : BayOcc)
    (h : bayStartOcc vehicleNumber stages startEvent = some o) :
    o.total = o.detail.endTime - o.detail.startTime := by
  unfold bayStartOcc at h
  rcases hw : bayWalk
      (sortByTs (stages.filter fun s =>
        decide (startEvent.timestamp < s.timestamp) &&
          (s.eventType == "Pause" || s.eventType == "Resume" || s.eventType == "End")))
      startEvent.timestamp 0 0 "active" with ⟨fst, a, p⟩
  rw [hw] at h
  cases fst with
  | none => simp at h
  | some endEvent =>
    simp only [Option.some.injEq] at h
    subst h
    rfl

theorem bayVehicleOccs_shape (wStart wEnd : Instant) (v : Vehicle) :
    ∀ o ∈ bayVehicleOccs wStart wEnd v,
      o.total = o.detail.endTime - o.detail.startTime := by
  intro o ho
  unfold bayVehicleOccs at ho
  rw [List.mem_flatMap] at ho
  obtain ⟨k, _, hko⟩ := ho
  unfold bayGroupOccs at hko
  rw [List.mem_filterMap] at hko
  obtain ⟨startEvent, _, hmatch⟩ := hko
  exact bayStartOcc_shape _ _ _ _ hmatch

/-- Every job-card detail stores as its duration the formatted difference of
its recorded endpoints, and that difference is positive. -/
theorem jcrDetails_shape (wStart wEnd : Instant) (v : Vehicle) :
    ∀ d ∈ jcrBayAllocationDetails wStart wEnd v,
      d.duration = formatDuration ((d.endTime - d.startTime : ℤ) : ℚ) ∧
        d.startTime < d.endTime := by
  intro d hd
  unfold jcrBayAllocationDetails at hd
  rw [List.mem_filterMap] at hd
  obtain ⟨s, _, hmap⟩ := hd
  rw [Option.map_eq_some'] at hmap
  obtain ⟨nb, hfind, rfl⟩ := hmap
  refine ⟨rfl, ?_⟩
  have hp := List.find?_some hfind
  simp only [Bool.and_eq_true, decide_eq_true_eq] at hp
  exact hp.2

/-- The digit characters produced by the decimal printer decode back to their
value via the Number model and are never a colon. -/
theorem digitChar_facts (m : ℕ) (hm : m < 10) :
    (Nat.digitChar m).toNat = 48 + m ∧ Nat.digitChar m ≠ ':' := by
  interval_cases m <;> exact ⟨rfl, by decide⟩

/-- The accumulator argument of the decimal printer is pure list prefixing. -/
theorem toDigitsCore_acc :
    ∀ (fuel n : ℕ) (ds : List Char),
      Nat.toDigitsCore 10 fuel n ds = Nat.toDigitsCore 10 fuel n [] ++ ds := by
  intro fuel
  induction fuel with
  | zero => intro n ds; simp [Nat.toDigitsCore]
  | succ fuel ih =>
    intro n ds
    simp only [Nat.toDigitsCore]
    by_cases h : n / 10 = 0
    · simp [h]
    · rw [if_neg h, if_neg h, ih (n / 10) [Nat.digitChar (n % 10)],
        ih (n / 10) (Nat.digitChar (n % 10) :: ds)]
      simp

/-- Folding the digit parser over the decimal printer's output recovers the
printed number (shifted under any accumulator), and the output contains no
colon. -/
theorem toDigitsCore_val :
    ∀ (fuel n : ℕ), n < fuel →
      (∀ a : ℕ,
        (Nat.toDigitsCore 10 fuel n []).foldl (fun acc c => acc * 10 + digitVal c) a =
          a * 10 ^ (Nat.toDigitsCore 10 fuel n []).length + n) ∧
      ':' ∉ Nat.toDigitsCore 10 fuel n [] := by
  intro fuel
  induction fuel with
  | zero => intro n hn; omega
  | succ fuel ih =>
    intro n hn
    simp only [Nat.toDigitsCore]
    by_cases h : n / 10 = 0
    · rw [if_pos h]
      have hd := digitChar_facts (n % 10) (by omega)
      constructor
      · intro a
        simp only [List.foldl_cons, List.foldl_nil, List.length_cons,
          List.length_nil, pow_one, digitVal, hd.1]
        omega
      · intro hc
        rcases List.mem_singleton.mp hc with hc2
        exact hd.2 hc2.symm
    · rw [if_neg h]
      have hlt : n / 10 < fuel := by
        have h10 : n / 10 < n := Nat.div_lt_self (by omega) (by omega)
        omega
      obtain ⟨ihv, ihc⟩ := ih (n / 10) hlt
      rw [toDigitsCore_acc]
      have hd := digitChar_facts (n % 10) (by omega)
      constructor
      · intro a
        rw [List.foldl_append, List.length_append, ihv a]
        simp only [List.foldl_cons, List.foldl_nil, List.length_cons, List.length_nil]
        have hdv : digitVal (Nat.digitChar (n % 10)) = n % 10 := by
          unfold digitVal
          rw [hd.1]
          omega
        rw [hdv, pow_succ]
        have hmod := Nat.div_add_mod n 10
        have hexp : (a * 10 ^ (Nat.toDigitsCore 10 fuel (n / 10) []).length + n / 10) * 10 +
            n % 10 =
            a * (10 ^ (Nat.toDigitsCore 10 fuel (n / 10) []).length * 10) +
              (10 * (n / 10) + n % 10) := by
          ring
        rw [hexp, hmod]
      · intro hc
        rcases List.mem_append.mp hc with hc1 | hc2
        · exact ihc hc1
        · exact hd.2 (List.mem_singleton.mp hc2).symm

/-- The Number model is a left inverse of the decimal printer. -/
theorem jsNumber_repr (n : ℕ) :
    jsNumber (Nat.repr n) = n ∧ ':' ∉ (Nat.repr n).data := by
  obtain ⟨hv, hc⟩ := toDigitsCore_val (n + 1) n (by omega)
  constructor
  · have := hv 0
    simpa [jsNumber, Nat.repr, Nat.toDigits, List.asString] using this
  · simpa [Nat.repr, Nat.toDigits, List.asString] using hc

/-- Parsing zeros contributes nothing to the accumulated value. -/
theorem foldl_zeros (k : ℕ) :
    (List.replicate k '0').foldl (fun acc c => acc * 10 + digitVal c) 0 = 0 := by
  induction k with
  | zero => rfl
  | succ k ih =>
    rw [List.replicate_succ, List.foldl_cons]
    simpa [digitVal] using ih

/-- Left zero-padding does not change the parsed value and introduces no
colon. -/
theorem jsNumber_padTwo (s : String) :
    jsNumber (padTwo s) = jsNumber s ∧ (':' ∉ s.data → ':' ∉ (padTwo s).data) := by
  constructor
  · unfold jsNumber padTwo
    rw [String.data_append]
    have hrep : (String.mk (List.replicate (2 - s.length) '0')).data =
        List.replicate (2 - s.length) '0' := rfl
    rw [hrep, List.foldl_append, foldl_zeros]
  · intro hs hc
    unfold padTwo at hc
    rw [String.data_append] at hc
    rcases List.mem_append.mp hc with hc1 | hc2
    · have : (':' : Char) = '0' := (List.eq_of_mem_replicate hc1)
      cases this
    · exact hs hc2

/-- A colon-free character list is one whole split group. -/
theorem splitColons_no_colon : ∀ (g : List Char), ':' ∉ g → splitColons g = [g] := by
  intro g
  induction g with
  | nil => intro _; rfl
  | cons c rest ih =>
    intro hc
    have hcne : ¬ c = ':' := by
      intro h
      exact hc (h ▸ List.mem_cons_self c rest)
    unfold splitColons
    rw [if_neg hcne, ih (fun h => hc (List.mem_cons_of_mem _ h))]

/-- Splitting at the first colon after a colon-free group. -/
theorem splitColons_append : ∀ (g rest : List Char), ':' ∉ g →
    splitColons (g ++ ':' :: rest) = g :: splitColons rest := by
  intro g
  induction g with
  | nil =>
    intro rest _
    show splitColons (':' :: rest) = [] :: splitColons rest
    simp [splitColons]
  | cons c g2 ih =>
    intro rest hc
    have hcne : ¬ c = ':' := by
      intro h
      exact hc (h ▸ List.mem_cons_self c g2)
    show splitColons (c :: (g2 ++ ':' :: rest)) = (c :: g2) :: splitColons rest
    simp only [splitColons]
    rw [if_neg hcne, ih rest (fun h => hc (List.mem_cons_of_mem _ h))]

/-- Parsing a formatted HH:MM:SS string recovers its whole-second value in
milliseconds. -/
theorem parseDurationMs_fmtSec (ts : ℕ) : parseDurationMs (fmtSec ts) = ts * 1000 := by
  unfold parseDurationMs fmtSec
  simp only [List.map]
  rw [intercalate_three]
  have hdata : (padTwo (Nat.repr (ts / 3600)) ++ ":" ++ padTwo (Nat.repr (ts % 3600 / 60)) ++
      ":" ++ padTwo (Nat.repr (ts % 60))).data =
      (padTwo (Nat.repr (ts / 3600))).data ++ ':' ::
        ((padTwo (Nat.repr (ts % 3600 / 60))).data ++ ':' ::
          (padTwo (Nat.repr (ts % 60))).data) := by
    simp [String.data_append]
  rw [hdata]
  have hc1 : ':' ∉ (padTwo (Nat.repr (ts / 3600))).data :=
    (jsNumber_padTwo _).2 (jsNumber_repr _).2
  have hc2 : ':' ∉ (padTwo (Nat.repr (ts % 3600 / 60))).data :=
    (jsNumber_padTwo _).2 (jsNumber_repr _).2
  have hc3 : ':' ∉ (padTwo (Nat.repr (ts % 60))).data :=
    (jsNumber_padTwo _).2 (jsNumber_repr _).2
  rw [splitColons_append _ _ hc1, splitColons_append _ _ hc2,
    splitColons_no_colon _ hc3]
  simp only [List.map]
  have hv1 : jsNumber (String.mk (padTwo (Nat.repr (ts / 3600))).data) = ts / 3600 := by
    show jsNumber (padTwo (Nat.repr (ts / 3600))) = ts / 3600
    rw [(jsNumber_padTwo _).1, (jsNumber_repr _).1]
  have hv2 : jsNumber (String.mk (padTwo (Nat.repr (ts % 3600 / 60))).data) =
      ts % 3600 / 60 := by
    show jsNumber (padTwo (Nat.repr (ts % 3600 / 60))) = ts % 3600 / 60
    rw [(jsNumber_padTwo _).1, (jsNumber_repr _).1]
  have hv3 : jsNumber (String.mk (padTwo (Nat.repr (ts % 60))).data) = ts % 60 := by
    show jsNumber (padTwo (Nat.repr (ts % 60))) = ts % 60
    rw [(jsNumber_padTwo _).1, (jsNumber_repr _).1]
  rw [hv1, hv2, hv3]
  omega

/-- Accumulating with addition over a list is summing the mapped values. -/
theorem foldl_add_sum {α : Type} (f : α → ℕ) (l : List α) :
    ∀ a : ℕ, l.foldl (fun acc x => acc + f x) a = a + (l.map f).sum := by
  induction l with
  | nil => intro a; simp
  | cons x rest ih =>
    intro a
    rw [List.foldl_cons, ih]
    simp
    omega

/-- C8 (amended): in every family the reported count equals the length of the
details list; in the stage-averages and Bay Work families totalDurationMs
equals the exact sum of the detail durations endTime - startTime; the
job-card family re-derives its total by parsing the formatted duration
strings, so its accumulated total equals the sum of the detail durations
truncated to whole seconds (not the exact millisecond sum). -/
theorem claim_C8 (stageName : String) (wStart wEnd : Instant)
    (vehicles : List Vehicle) (v : Vehicle) :
    ((stageBucket stageName wStart wEnd vehicles).count =
        (stageBucket stageName wStart wEnd vehicles).details.length ∧
      (stageBucket stageName wStart wEnd vehicles).totalDurationMs =
        ((stageBucket stageName wStart wEnd vehicles).details.map
          fun d => d.endTime - d.startTime).sum) ∧
    ((bayOverallBucket wStart wEnd vehicles).count =
        (bayOverallBucket wStart wEnd vehicles).details.length ∧
      (bayOverallBucket wStart wEnd vehicles).totalDurationMs =
        ((bayOverallBucket wStart wEnd vehicles).details.map
          fun d => d.endTime - d.startTime).sum) ∧
    ((jcrFormat (jcrBayAllocationDetails wStart wEnd v)).count =
        (jcrBayAllocationDetails wStart wEnd v).length ∧
      (jcrBayAllocationDetails wStart wEnd v).foldl
          (fun sum d => sum + parseDurationMs d.duration) 0 =
        ((jcrBayAllocationDetails wStart wEnd v).map
          fun d => ((d.endTime - d.startTime) / 1000).toNat * 1000).sum) := by
  refine ⟨⟨?_, ?_⟩, ⟨?_, ?_⟩, ?_, ?_⟩
  · obtain ⟨h1, h2, _⟩ :=
      foldl_pushOcc (vehicles.flatMap (stageVehicleOccs stageName wStart wEnd)) ⟨0, 0, []⟩
    unfold stageBucket
    rw [h1, h2]
    simp
  · obtain ⟨_, h2, h3⟩ :=
      foldl_pushOcc (vehicles.flatMap (stageVehicleOccs stageName wStart wEnd)) ⟨0, 0, []⟩
    unfold stageBucket
    rw [h2, h3]
    simp only [List.nil_append, List.map_map, zero_add]
    have hcong : (vehicles.flatMap (stageVehicleOccs stageName wStart wEnd)).map Prod.fst =
        (vehicles.flatMap (stageVehicleOccs stageName wStart wEnd)).map
          (fun o => o.2.endTime - o.2.startTime) := by
      apply List.map_congr_left
      intro o ho
      rw [List.mem_flatMap] at ho
      obtain ⟨w, _, hw⟩ := ho
      exact stageVehicleOccs_shape stageName wStart wEnd w o hw
    rw [hcong]
    simp only [Function.comp_def]
  · obtain ⟨h1, h2, _⟩ :=
      foldl_pushBayOcc (vehicles.flatMap (bayVehicleOccs wStart wEnd)) ⟨0, 0, 0, 0, []⟩
    unfold bayOverallBucket
    rw [h1, h2]
    simp
  · obtain ⟨_, h2, h3⟩ :=
      foldl_pushBayOcc (vehicles.flatMap (bayVehicleOccs wStart wEnd)) ⟨0, 0, 0, 0, []⟩
    unfold bayOverallBucket
    rw [h2, h3]
    simp only [List.nil_append, List.map_map, zero_add]
    have hcong : (vehicles.flatMap (bayVehicleOccs wStart wEnd)).map BayOcc.total =
        (vehicles.flatMap (bayVehicleOccs wStart wEnd)).map
          (fun o => o.detail.endTime - o.detail.startTime) := by
      apply List.map_congr_left
      intro o ho
      rw [List.mem_flatMap] at ho
      obtain ⟨w, _, hw⟩ := ho
      exact bayVehicleOccs_shape wStart wEnd w o hw
    rw [hcong]
    simp only [Function.comp_def]
  · by_cases hl : 0 < (jcrBayAllocationDetails wStart wEnd v).length
    · simp [jcrFormat, hl]
    · simp only [jcrFormat, hl, if_neg, not_false_iff]
      omega
  · rw [foldl_add_sum (α := Detail) (fun d => parseDurationMs d.duration)
      (jcrBayAllocationDetails wStart wEnd v) 0]
    simp only [zero_add]
    apply congrArg List.sum
    apply List.map_congr_left
    intro d hd
    obtain ⟨hdur, _⟩ := jcrDetails_shape wStart wEnd v d hd
    rw [hdur, formatDuration_intCast, parseDurationMs_fmtSec]

/-- C8 counterexample: on vC8 the single job-card detail spans 1500 ms, but
the total the family accumulates by re-parsing the formatted duration string
is 1000 ms — the reported total is not the sum of the individual occurrence
durations, it is their truncation to whole seconds. -/
theorem claim_C8_counterexample :
    ((jcrBayAllocationDetails 0 10000 vC8).map fun d => d.endTime - d.startTime) = [1500] ∧
    (jcrBayAllocationDetails 0 10000 vC8).foldl
      (fun sum d => sum + parseDurationMs d.duration) 0 = 1000 := by
  constructor
  · decide
  · have hds : jcrBayAllocationDetails 0 10000 vC8 =
        [{ vehicleNumber := "V8", startTime := 0, endTime := 1500,
           duration := formatDuration ((1500 - 0 : ℤ) : ℚ) }] := rfl
    rw [hds]
    simp only [List.foldl_cons, List.foldl_nil]
    rw [show ((1500 - 0 : ℤ) : ℚ) = ((1500 : ℤ) : ℚ) by norm_num,
      formatDuration_intCast]
    decide

end MBCTS
